import Mathlib

/-!
Shallow embedding of the reconciliation core of homebridge-adguardhome-plus
(src/adguardhome.ts, src/platformAccessory.ts, src/platform.ts), together
with theorems checking the natural-language specification against it.

HTTP calls are modelled by an oracle `Net : AghRequest → Bool` that says
whether a given request succeeds (a `got` promise resolving with status 200)
or fails (rejects / non-2xx).  The durable per-client save slots are a
function `ClientStore : String → Option AdGuardClientConfig`.  Machine time
is a `Nat` count of epoch milliseconds.
-/

namespace AGHP

/-- The four-valued switch state (`AdGuardHomeState` in platformAccessory.ts). -/
inductive AdGuardHomeState
  | BLOCKING
  | DISABLED
  | INCONSISTENT
  | UNAVAILABLE
deriving DecidableEq, Repr

/-- One entry of the AdGuard Home client list (`AdGuardClientConfig` is `any`
in adguardhome.ts; these are the fields the core reads, with `undefined`
flattened to the falsy default).  The optional nested `safe_search.enabled`
flag is flattened into `safe_search_enabled`. -/
structure AdGuardClientConfig where
  name : String
  tags : List String := []
  use_global_settings : Bool := false
  use_global_blocked_services : Bool := false
  blocked_services : List String := []
  filtering_enabled : Bool := false
  parental_enabled : Bool := false
  safebrowsing_enabled : Bool := false
  safesearch_enabled : Bool := false
  safe_search_enabled : Bool := false
deriving DecidableEq, Repr

/-- Snapshot of the server state (`AdGuardStatus` in adguardhome.ts).
`isAvailable` and `enabled` are `boolean | undefined` in the source, hence
`Option Bool` here (`none` = undefined); the code only ever tests them
with `=== true` / truthiness. -/
structure AdGuardStatus where
  isAvailable : Option Bool := none
  error : Option String := none
  enabled : Option Bool := none
  blocked_services : List String := []
  clients : List AdGuardClientConfig := []
deriving DecidableEq, Repr

/-- Containment score (platformAccessory.ts `containsAllOrNone`): fold over
`subset` tracking `all`/`none` flags, then `all ? 1 : (none ? -1 : 0)`. -/
def containsAllOrNone (superset subset : List String) : Int :=
  let acc := subset.foldl
    (fun (p : Bool × Bool) s =>
      if superset.contains s then (p.1, false) else (false, p.2))
    (true, true)
  if acc.1 then 1 else if acc.2 then -1 else 0

/-- Whether a client currently has any blocking enabled
(adguardhome.ts `isBlockingEnabled`).  The `!clientStatus` null shortcut of
the source cannot arise here since the record is not nullable. -/
def isBlockingEnabled (clientStatus : AdGuardClientConfig) (ignoreServices : Bool := false) : Bool :=
  clientStatus.use_global_settings
    || (!ignoreServices && clientStatus.use_global_blocked_services)
    || (!ignoreServices && decide (0 < clientStatus.blocked_services.length))
    || clientStatus.filtering_enabled
    || clientStatus.parental_enabled
    || clientStatus.safebrowsing_enabled
    || clientStatus.safesearch_enabled
    || clientStatus.safe_search_enabled

/-- Anchored glob matching over character lists.  This is the semantics of
the regular expression built by adguardhome.ts `wildcardMatch`: every
regex-special character of the wildcard is escaped (so it matches itself),
then `*` becomes `.*` (any run of characters) and `?` becomes `.` (exactly
one character), and the whole pattern is anchored with `^...$`. -/
def globMatch : List Char → List Char → Bool
  | [], s => s.isEmpty
  | '*' :: ps, s => s.tails.any fun suffix => globMatch ps suffix
  | '?' :: ps, s =>
    match s with
    | [] => false
    | _ :: cs => globMatch ps cs
  | p :: ps, s =>
    match s with
    | [] => false
    | c :: cs => (p == c) && globMatch ps cs

/-- Case-sensitive wildcard match (adguardhome.ts `wildcardMatch` with its
default `caseSensitive = true`; no caller passes `false`). -/
def wildcardMatch (wildcard str : String) : Bool :=
  globMatch wildcard.data str.data

/-- JavaScript `String.prototype.startsWith`, on the character list of the
string (kernel-computable, unlike `String.startsWith`). -/
def strStartsWith (s p : String) : Bool :=
  p.data.isPrefixOf s.data

/-- JavaScript `String.prototype.includes` for a single character. -/
def strContainsChar (s : String) (c : Char) : Bool :=
  s.data.contains c

/-- JavaScript `String.prototype.substring(n)`. -/
def strDrop (s : String) (n : Nat) : String :=
  ⟨s.data.drop n⟩

/-- Push-if-absent, the `if (!list.includes(x)) list.push(x)` idiom used by
`expandTags` and `merge` in adguardhome.ts. -/
def dedupPush (l : List String) (s : String) : List String :=
  if l.contains s then l else l ++ [s]

/-- Selector expansion (adguardhome.ts `expandTags`) against the cached
client list `latestClients` (`this.latest.clients`).  A `@tag` token expands
to every cached client carrying the tag, a token containing `*` expands by
wildcard match against cached client names, any other token passes through
literally; every push is de-duplicated against the accumulated result.
The `!this.latest.clients` null guard of the source cannot fire here since
the cache is a (possibly empty) list. -/
def expandTags (latestClients : List AdGuardClientConfig) (clientList : List String) : List String :=
  clientList.foldl
    (fun newClientList c =>
      if strStartsWith c "@" then
        (latestClients.filter fun cstat => cstat.tags.contains (strDrop c 1)).foldl
          (fun acc exp => dedupPush acc exp.name) newClientList
      else if strContainsChar c '*' then
        (latestClients.filter fun cstat => wildcardMatch c cstat.name).foldl
          (fun acc exp => dedupPush acc exp.name) newClientList
      else
        dedupPush newClientList c)
    []

/-- Per-switch-group configuration (the fields of `accessory.context.config`
read by platformAccessory.ts, after the comma-splitting of the `clients`
and `services` strings). -/
structure GroupConfig where
  name : String := ""
  defaultState : Bool := true
  forceState : Bool := false
  clients : List String := []
  services : List String := []
deriving DecidableEq, Repr

/-- Group is global iff its client selector list is empty
(platformAccessory.ts `get isGlobal`). -/
def isGlobal (cfg : GroupConfig) : Bool :=
  decide (cfg.clients.length = 0)

/-- Group selects specific services iff its service list is non-empty
(platformAccessory.ts `get isSelectServices`). -/
def isSelectServices (cfg : GroupConfig) : Bool :=
  decide (0 < cfg.services.length)

/-- Status derivation (platformAccessory.ts `getStateFromAdGuardStatus`).
`latestClients` is the server object's cached client list used by
`this.agh.expandTags`. -/
def getStateFromAdGuardStatus (cfg : GroupConfig) (latestClients : List AdGuardClientConfig)
    (status : AdGuardStatus) : AdGuardHomeState :=
  if status.isAvailable ≠ some true then
    AdGuardHomeState.UNAVAILABLE
  else
    let cmp : Int :=
      if isGlobal cfg then
        if isSelectServices cfg then
          containsAllOrNone status.blocked_services cfg.services
        else
          if status.enabled = some true then 1 else -1
      else
        let clientList := expandTags latestClients cfg.clients
        let acc : Bool × Bool :=
          if isSelectServices cfg then
            clientList.foldl
              (fun (p : Bool × Bool) client =>
                match status.clients.find? (fun c => c.name == client) with
                | some clientStatus =>
                  let ccomp := containsAllOrNone clientStatus.blocked_services cfg.services
                  (p.1 && decide (0 < ccomp), p.2 && decide (ccomp < 0))
                | none => (false, p.2))
              (true, true)
          else
            clientList.foldl
              (fun (p : Bool × Bool) client =>
                match status.clients.find? (fun c => c.name == client) with
                | some clientStatus =>
                  let blocking := isBlockingEnabled clientStatus
                  (p.1 && blocking, p.2 && !blocking)
                | none => (false, p.2))
              (true, true)
        if acc.1 then 1 else if acc.2 then -1 else 0
    if cmp < 0 then AdGuardHomeState.DISABLED
    else if 0 < cmp then AdGuardHomeState.BLOCKING
    else AdGuardHomeState.INCONSISTENT

/-- Requests the core can issue against the AdGuard Home HTTP API. -/
inductive AghRequest
  | postGlobalReq (enabled : Bool)
  | putGlobalServicesReq (ids : List String)
  | postClientUpdateReq (name : String) (data : AdGuardClientConfig)
deriving DecidableEq, Repr

/-- Success oracle for HTTP requests: `net r = true` means the request's
promise resolves with status 200, `false` means it rejects or returns a
non-200 code.  `doPostWrapper` maps either failure mode to `false`. -/
abbrev Net := AghRequest → Bool

/-- Durable per-client save slots (`readClientState` / `writeClientState`
over files keyed by client name); `none` is an absent or unreadable slot. -/
abbrev ClientStore := String → Option AdGuardClientConfig

/-- Point update of the client store. -/
def storeWrite (st : ClientStore) (k : String) (v : Option AdGuardClientConfig) : ClientStore :=
  fun k' => if k' = k then v else st k'

/-- List merge (adguardhome.ts `merge`): copy `list1`, then append each
element of `list2` not already present.  The `sort` parameter of the source
defaults to false and no caller passes it, so it is omitted. -/
def merge (list1 list2 : List String) : List String :=
  list2.foldl dedupPush list1

/-- List difference (adguardhome.ts `remove`): keep the elements of
`oldList` not contained in `subList`. -/
def remove (oldList subList : List String) : List String :=
  oldList.filter fun s => !subList.contains s

/-- New per-client configuration when toggling blocking without a saved
record (adguardhome.ts `setBlockingConfig`). -/
def setBlockingConfig (clientConfig : AdGuardClientConfig) (blocking : Bool) : AdGuardClientConfig :=
  if blocking then
    if !isBlockingEnabled clientConfig then
      { clientConfig with use_global_settings := true, use_global_blocked_services := true }
    else
      { clientConfig with
          use_global_settings :=
            clientConfig.use_global_settings || !isBlockingEnabled clientConfig true,
          use_global_blocked_services := decide (0 < clientConfig.blocked_services.length) }
  else
    { clientConfig with
        use_global_settings := false,
        filtering_enabled := false,
        parental_enabled := false,
        safebrowsing_enabled := false,
        safesearch_enabled := false,
        safe_search_enabled := false,
        use_global_blocked_services := false,
        blocked_services := [] }

/-- Global protection toggle (adguardhome.ts `postGlobal`): one POST to
`dns_config`; result is that request's success. -/
def postGlobal (net : Net) (enabled : Bool) : Bool × List AghRequest :=
  (net (AghRequest.postGlobalReq enabled), [AghRequest.postGlobalReq enabled])

/-- Global blocked-service update (adguardhome.ts `postGlobalServices`):
replace the full list with cache ∪ services (enabling) or cache \ services
(disabling); one PUT to `blocked_services/update`. -/
def postGlobalServices (net : Net) (latest : AdGuardStatus) (enabled : Bool)
    (services : List String) : Bool × List AghRequest :=
  let newServiceList :=
    if enabled then merge latest.blocked_services services
    else remove latest.blocked_services services
  (net (AghRequest.putGlobalServicesReq newServiceList),
    [AghRequest.putGlobalServicesReq newServiceList])

/-- Per-client blocking toggle (adguardhome.ts `postClients`): expand the
selectors, keep clients found in the cache, and for each one compute the new
record — on enable, replay a saved record (clearing the slot, as
`readClientState` does) or fall back to `setBlockingConfig _ true`; on
disable, save the current record when it has blocking enabled and post
`setBlockingConfig _ false`.  Overall success is the AND over the batch
(`doPostWrapper` over `Promise.allSettled`). -/
def postClients (net : Net) (latestClients : List AdGuardClientConfig) (store : ClientStore)
    (enabled : Bool) (clients : List String) : Bool × ClientStore × List AghRequest :=
  let clientList := expandTags latestClients clients
  let found := clientList.filterMap fun cname => latestClients.find? fun c => c.name == cname
  let r := found.foldl
    (fun (p : ClientStore × List AghRequest) clientConfig =>
      if enabled then
        match p.1 clientConfig.name with
        | some saved =>
          (storeWrite p.1 clientConfig.name none,
            p.2 ++ [AghRequest.postClientUpdateReq clientConfig.name saved])
        | none =>
          (p.1, p.2 ++ [AghRequest.postClientUpdateReq clientConfig.name
            (setBlockingConfig clientConfig true)])
      else
        let st :=
          if isBlockingEnabled clientConfig then
            storeWrite p.1 clientConfig.name (some clientConfig)
          else p.1
        (st, p.2 ++ [AghRequest.postClientUpdateReq clientConfig.name
          (setBlockingConfig clientConfig false)]))
    (store, [])
  (r.2.all net, r.1, r.2)

/-- Per-client service update (adguardhome.ts `postClientServices`): expand
the selectors, keep clients found in the cache, and for each one replace its
`blocked_services` with its own cached list merged with (enabling) or minus
(disabling) the selected services.  Overall success is the AND over the
batch. -/
def postClientServices (net : Net) (latestClients : List AdGuardClientConfig) (enabled : Bool)
    (clients services : List String) : Bool × List AghRequest :=
  let clientList := expandTags latestClients clients
  let found := clientList.filterMap fun cname => latestClients.find? fun c => c.name == cname
  let reqs := found.map fun clientConfig =>
    AghRequest.postClientUpdateReq clientConfig.name
      { clientConfig with blocked_services :=
          (if enabled then merge clientConfig.blocked_services services
           else remove clientConfig.blocked_services services) }
  (reqs.all net, reqs)

/-- Consistent states are the two clean binary outcomes
(platformAccessory.ts `isConsistentState`). -/
def isConsistentState : AdGuardHomeState → Bool
  | AdGuardHomeState.BLOCKING => true
  | AdGuardHomeState.DISABLED => true
  | _ => false

/-- Valid states (platformAccessory.ts `isValidState`); every value of the
embedded enum is one of the four string constants the source accepts. -/
def isValidState : AdGuardHomeState → Bool
  | AdGuardHomeState.BLOCKING => true
  | AdGuardHomeState.DISABLED => true
  | AdGuardHomeState.INCONSISTENT => true
  | AdGuardHomeState.UNAVAILABLE => true

/-- Boolean to state (platformAccessory.ts `toAGHState`). -/
def toAGHState (bState : Bool) : AdGuardHomeState :=
  if bState then AdGuardHomeState.BLOCKING else AdGuardHomeState.DISABLED

/-- Mutable runtime state of a switch group (the `_currentState` and
`_targetState` fields of platformAccessory.ts). -/
structure GroupState where
  currentState : AdGuardHomeState
  targetState : AdGuardHomeState
deriving DecidableEq, Repr

/-- The `targetState` property setter: only consistent values are stored,
anything else is silently dropped. -/
def setTargetState (g : GroupState) (value : AdGuardHomeState) : GroupState :=
  if isConsistentState value then { g with targetState := value } else g

/-- The `currentState` property setter: a valid value first goes through the
`targetState` setter and is then stored as the current state. -/
def setCurrentState (g : GroupState) (value : AdGuardHomeState) : GroupState :=
  if isValidState value then
    { setTargetState g value with currentState := value }
  else g

/-- Result of one `setAdGuardState` call: the new runtime state, the state
value the method returns, whether the dispatch succeeded, the client store
after any saves/restores, and the HTTP requests issued. -/
structure MutationResult where
  g : GroupState
  returned : AdGuardHomeState
  successful : Bool
  store : ClientStore
  requests : List AghRequest

/-- Mutation dispatch (platformAccessory.ts `setAdGuardState`): set the
target through its setter, dispatch on selector shape, then assign
`currentState := successful ? target : UNAVAILABLE` through the setter and
return the resulting current state. -/
def setAdGuardState (cfg : GroupConfig) (net : Net) (latest : AdGuardStatus) (store : ClientStore)
    (agState : Bool) (g : GroupState) : MutationResult :=
  let target := toAGHState agState
  let g1 := setTargetState g target
  let r : Bool × ClientStore × List AghRequest :=
    if isGlobal cfg then
      if isSelectServices cfg then
        let p := postGlobalServices net latest agState cfg.services
        (p.1, store, p.2)
      else
        let p := postGlobal net agState
        (p.1, store, p.2)
    else
      if isSelectServices cfg then
        let p := postClientServices net latest.clients agState cfg.clients cfg.services
        (p.1, store, p.2)
      else
        postClients net latest.clients store agState cfg.clients
  let g2 := setCurrentState g1 (if r.1 then target else AdGuardHomeState.UNAVAILABLE)
  ⟨g2, g2.currentState, r.1, r.2.1, r.2.2⟩

/-- Result of `updateHomeKit`: the new runtime state and the pair
`(state, target)` pushed to the presentation layer for every sibling
switch. -/
structure UpdateResult where
  g : GroupState
  presented : AdGuardHomeState × AdGuardHomeState

/-- Presentation update (platformAccessory.ts `updateHomeKit`): run `target`
through the target setter, render `(state, target)` on every switch, then
store `state` through the current-state setter.  The source defaults
`target` to `this.targetState`; call sites pass it explicitly here. -/
def updateHomeKit (g : GroupState) (state : AdGuardHomeState)
    (target : AdGuardHomeState) : UpdateResult :=
  let g1 := setTargetState g target
  let g2 := setCurrentState g1 state
  ⟨g2, (state, target)⟩

/-- Result of a reconciliation-tick `update` call: the new runtime state and
the presentation push, when one happened. -/
structure GroupUpdateResult where
  g : GroupState
  propagated : Option (AdGuardHomeState × AdGuardHomeState)

/-- Reconciliation update (platformAccessory.ts `update`): derive the state
from the snapshot and propagate only when it differs from the cached current
state. -/
def update (cfg : GroupConfig) (latestClients : List AdGuardClientConfig) (g : GroupState)
    (currentStatus : AdGuardStatus) : GroupUpdateResult :=
  let newState := getStateFromAdGuardStatus cfg latestClients currentStatus
  if newState ≠ g.currentState then
    let r := updateHomeKit g newState newState
    ⟨r.g, some r.presented⟩
  else
    ⟨g, none⟩

/-- Result of a HomeKit toggle event: new runtime state, whether the toggle
was rejected, the minutes passed to `startNewTimer` (none when no timer call
was made), the requests issued, the resulting client store, and the final
presentation push. -/
structure SetEventResult where
  g : GroupState
  rejected : Bool
  timerMinutes : Option Nat
  requests : List AghRequest
  store : ClientStore
  presented : AdGuardHomeState × AdGuardHomeState

/-- User toggle handler (platformAccessory.ts `handleHomeKitSetEvent`): on a
non-consistent current state without the `forceState` override, abort and
re-render the unchanged state; otherwise arm the timer (the configured
timeout when switching away from the default state, 0 when switching back),
run the mutation dispatch, and re-render the resulting current state. -/
def handleHomeKitSetEvent (cfg : GroupConfig) (net : Net) (latest : AdGuardStatus)
    (store : ClientStore) (g : GroupState) (value : Bool) (timeout : Nat) : SetEventResult :=
  if !isConsistentState g.currentState && !cfg.forceState then
    let r := updateHomeKit g g.currentState g.targetState
    ⟨r.g, true, none, [], store, r.presented⟩
  else
    let newAGHState := value
    let timerMin := if newAGHState ≠ cfg.defaultState then timeout else 0
    let m := setAdGuardState cfg net latest store newAGHState g
    let r := updateHomeKit m.g m.g.currentState m.g.targetState
    ⟨r.g, false, some timerMin, m.requests, m.store, r.presented⟩

/-- JavaScript `Number.MAX_SAFE_INTEGER`, the upper clamp of
`startNewTimer`. -/
def maxSafeInteger : Nat := 9007199254740991

/-- Deadline written to the durable timer slot by platformAccessory.ts
`startNewTimer` at time `now`: minutes are clamped into
`[0, MAX_SAFE_INTEGER]`; 0 clears the slot, anything else stores
`now + minutes * 60000` (and schedules the expiry at that delay). -/
def startNewTimer (now minutes : Nat) : Nat :=
  let timeout := min minutes maxSafeInteger
  if timeout = 0 then 0 else now + timeout * 60000

/-- What a startup timer restoration did besides rewriting the slot. -/
inductive RestoreEffect
  | noEffect
  | runDefault
  | rearmed (minutes : Nat)
deriving DecidableEq, Repr

/-- Result of `restoreUnfinishedTimers`: the value left in the durable timer
slot, the classification of what happened, the runtime state, store,
requests and presentation push of the expiry path (unchanged/empty on the
other paths). -/
structure RestoreResult where
  stored : Nat
  effect : RestoreEffect
  g : GroupState
  store : ClientStore
  requests : List AghRequest
  presented : Option (AdGuardHomeState × AdGuardHomeState)

/-- Startup timer restoration (platformAccessory.ts
`restoreUnfinishedTimers`).  `stored` is the parsed content of the timer
file: `none` for a missing/unreadable file or unparseable (NaN) content.
The source's `!timeout || isNaN(timeout)` guard also catches a stored 0, so
both the absent and the zero case rewrite the slot to 0 and do nothing else
(its separate `timeout === 0` branch is unreachable).  A deadline at or
before `now` clears the slot and drives the group to its default state via
`setAdGuardState` followed by `updateHomeKit`; a future deadline re-arms
`startNewTimer` with the remaining delay in ceiling-rounded minutes. -/
def restoreUnfinishedTimers (cfg : GroupConfig) (net : Net) (latest : AdGuardStatus)
    (store : ClientStore) (g : GroupState) (now : Nat) (stored : Option Nat) : RestoreResult :=
  match stored with
  | none => ⟨0, RestoreEffect.noEffect, g, store, [], none⟩
  | some timeout =>
    if timeout = 0 then
      ⟨0, RestoreEffect.noEffect, g, store, [], none⟩
    else if timeout ≤ now then
      let m := setAdGuardState cfg net latest store cfg.defaultState g
      let r := updateHomeKit m.g m.returned (toAGHState cfg.defaultState)
      ⟨0, RestoreEffect.runDefault, r.g, m.store, m.requests, some r.presented⟩
    else
      let diff := (timeout - now + 59999) / 60000
      ⟨startNewTimer now diff, RestoreEffect.rearmed diff, g, store, [], none⟩

/-- Outcomes of the three independent GET calls of `getCurrentStatus`:
`/control/status` (its `protection_enabled` field),
`/control/blocked_services/get` (its `ids` field) and `/control/clients`
(its `clients` field).  `Except.error` covers network errors, timeouts and
non-2xx responses alike. -/
structure FetchOutcomes where
  statusResp : Except String Bool
  servicesResp : Except String (List String)
  clientsResp : Except String (List AdGuardClientConfig)

/-- Snapshot fetch (adguardhome.ts `getCurrentStatus`).  Returns the
snapshot handed to the caller together with the server object's cache
(`this.latest`) after the call.  The fresh snapshot starts from the
`AdGuardStatus` defaults with `isAvailable := true`; each requested call
that succeeds fills the matching field of both the snapshot and the cache;
the first failing requested call flips `isAvailable` to `false`, records the
error and (via the `abortPromise` flag) stops later handlers from applying
their results.  The three concurrent calls are sequentialised here in
source order; this fixes which of several simultaneous failures is
recorded, which the code leaves to promise timing. -/
def getCurrentStatus (latest : AdGuardStatus) (o : FetchOutcomes)
    (getStatus getDefaultServices getClientServices : Bool) : AdGuardStatus × AdGuardStatus :=
  let cur0 : AdGuardStatus := { isAvailable := some true }
  let s1 : AdGuardStatus × AdGuardStatus × Bool :=
    if getStatus then
      match o.statusResp with
      | Except.ok b => ({ cur0 with enabled := some b }, { latest with enabled := some b }, false)
      | Except.error e =>
        ({ cur0 with isAvailable := some false, error := some e }, latest, true)
    else (cur0, latest, false)
  let s2 : AdGuardStatus × AdGuardStatus × Bool :=
    if getDefaultServices && !s1.2.2 then
      match o.servicesResp with
      | Except.ok ids =>
        ({ s1.1 with blocked_services := ids }, { s1.2.1 with blocked_services := ids }, false)
      | Except.error e =>
        ({ s1.1 with isAvailable := some false, error := some e }, s1.2.1, true)
    else (s1.1, s1.2.1, s1.2.2)
  let s3 : AdGuardStatus × AdGuardStatus × Bool :=
    if getClientServices && !s2.2.2 then
      match o.clientsResp with
      | Except.ok cs =>
        ({ s2.1 with clients := cs }, { s2.2.1 with clients := cs }, false)
      | Except.error e =>
        ({ s2.1 with isAvailable := some false, error := some e }, s2.2.1, true)
    else (s2.1, s2.2.1, s2.2.2)
  (s3.1, s3.2.1)

/-! ## Spec-side definitions

These definitions follow the wording of spec.md (for the refinement-style
claims C1 and C7), to be compared with the source-derived definitions
above. -/

/-- Modelled from the spec's wording of status derivation (§4.2): the same
dispatch as `getStateFromAdGuardStatus`, but with the per-client `all`/`none`
accumulation expressed as universally quantified conjunctions, where a
resolved client absent from the snapshot's client list fails `all` but
leaves `none` unchanged. -/
def deriveStateSpec (cfg : GroupConfig) (latestClients : List AdGuardClientConfig)
    (status : AdGuardStatus) : AdGuardHomeState :=
  if status.isAvailable ≠ some true then
    AdGuardHomeState.UNAVAILABLE
  else
    let cmp : Int :=
      if isGlobal cfg then
        if isSelectServices cfg then
          containsAllOrNone status.blocked_services cfg.services
        else
          if status.enabled = some true then 1 else -1
      else
        let resolved := expandTags latestClients cfg.clients
        let lookup : String → Option AdGuardClientConfig :=
          fun cname => status.clients.find? fun c => c.name == cname
        let clientAll : String → Bool := fun cname =>
          match lookup cname with
          | some cs =>
            if isSelectServices cfg then
              decide (0 < containsAllOrNone cs.blocked_services cfg.services)
            else isBlockingEnabled cs
          | none => false
        let clientNone : String → Bool := fun cname =>
          match lookup cname with
          | some cs =>
            if isSelectServices cfg then
              decide (containsAllOrNone cs.blocked_services cfg.services < 0)
            else !isBlockingEnabled cs
          | none => true
        if decide (∀ cname ∈ resolved, clientAll cname = true) then 1
        else if decide (∀ cname ∈ resolved, clientNone cname = true) then -1
        else 0
    if cmp < 0 then AdGuardHomeState.DISABLED
    else if 0 < cmp then AdGuardHomeState.BLOCKING
    else AdGuardHomeState.INCONSISTENT

/-- Modelled from the spec's wording of selector expansion (§4.3): what a
single token resolves to — a `@tag` token to the names of the cached clients
carrying the tag in cache order, a token containing `*` to the cached client
names it matches, anything else to itself. -/
def resolveSelector (latestClients : List AdGuardClientConfig) (token : String) : List String :=
  if strStartsWith token "@" then
    (latestClients.filter fun c => c.tags.contains (strDrop token 1)).map fun c => c.name
  else if strContainsChar token '*' then
    (latestClients.filter fun c => wildcardMatch token c.name).map fun c => c.name
  else [token]

/-- First-occurrence de-duplication of a list of names. -/
def dedupKeepFirst (l : List String) : List String :=
  l.foldl dedupPush []

/-! ## Helper lemmas -/

/-- Boolean `all` as a decided universal. -/
theorem all_eq_decide {α : Type} (l : List α) (f : α → Bool) :
    l.all f = decide (∀ x ∈ l, f x = true) := by
  by_cases h : ∀ x ∈ l, f x = true
  · rw [List.all_eq_true.mpr h, decide_eq_true h]
  · rw [decide_eq_false h]
    cases ht : l.all f
    · rfl
    · exact absurd (List.all_eq_true.mp ht) h

/-- The `all`/`none` accumulator fold of `getStateFromAdGuardStatus`
computes the conjunctions of the per-client checks, with a missing client
record zeroing `all` and leaving `none` alone. -/
theorem foldl_allNone (l : List String) (g : String → Option AdGuardClientConfig)
    (A B : AdGuardClientConfig → Bool) (a b : Bool) :
    l.foldl (fun (p : Bool × Bool) client =>
      match g client with
      | some cs => (p.1 && A cs, p.2 && B cs)
      | none => (false, p.2)) (a, b)
    = (a && l.all (fun client => match g client with | some cs => A cs | none => false),
       b && l.all (fun client => match g client with | some cs => B cs | none => true)) := by
  induction l generalizing a b with
  | nil => simp
  | cons x xs ih =>
    cases hx : g x with
    | some cs => simp [hx, ih, Bool.and_assoc]
    | none => simp [hx, ih]

/-- The `all`/`none` accumulator fold of `containsAllOrNone` computes the
two containment conjunctions. -/
theorem containsAllOrNone_foldl (superset subset : List String) (a b : Bool) :
    subset.foldl (fun (p : Bool × Bool) s =>
      if superset.contains s then (p.1, false) else (false, p.2)) (a, b)
    = (a && subset.all (fun s => superset.contains s),
       b && subset.all (fun s => !superset.contains s)) := by
  induction subset generalizing a b with
  | nil => simp
  | cons x xs ih =>
    rw [List.foldl_cons]
    cases hx : superset.contains x
    · have hx' : x ∉ superset := by simpa using hx
      rw [if_neg (by simp), ih]
      simp [hx']
    · have hx' : x ∈ superset := by simpa using hx
      rw [if_pos rfl, ih]
      simp [hx', Bool.and_assoc]

/-- Trichotomy characterization of `containsAllOrNone`. -/
theorem containsAllOrNone_eq_if (superset subset : List String) :
    containsAllOrNone superset subset =
      if ∀ s ∈ subset, s ∈ superset then (1 : Int)
      else if ∀ s ∈ subset, s ∉ superset then -1
      else 0 := by
  unfold containsAllOrNone
  rw [containsAllOrNone_foldl]
  by_cases h1 : ∀ s ∈ subset, s ∈ superset
  · have ha : subset.all (fun s => superset.contains s) = true :=
      List.all_eq_true.mpr fun x hx => by simpa using h1 x hx
    simp [ha, h1]
  · have ha : subset.all (fun s => superset.contains s) = false := by
      cases ht : subset.all (fun s => superset.contains s)
      · rfl
      · exact absurd (fun x hx => by simpa using List.all_eq_true.mp ht x hx) h1
    by_cases h2 : ∀ s ∈ subset, s ∉ superset
    · have hn : subset.all (fun s => !superset.contains s) = true :=
        List.all_eq_true.mpr fun x hx => by simpa using h2 x hx
      simp [ha, hn, h1, h2]
    · have hn : subset.all (fun s => !superset.contains s) = false := by
        cases ht : subset.all (fun s => !superset.contains s)
        · rfl
        · exact absurd (fun x hx => by simpa using List.all_eq_true.mp ht x hx) h2
      simp [ha, hn, h1, h2]

/-- Folding `dedupPush` over an already-deduplicated accumulator keeps it
duplicate-free. -/
theorem foldl_dedupPush_nodup (l : List String) (acc : List String) (h : acc.Nodup) :
    (l.foldl dedupPush acc).Nodup := by
  induction l generalizing acc with
  | nil => exact h
  | cons x xs ih =>
    rw [List.foldl_cons]
    apply ih
    unfold dedupPush
    cases hx : acc.contains x
    · have hx' : x ∉ acc := by simpa using hx
      simp [List.nodup_append, h, hx']
    · simpa using h

/-- The interleaved push loop of `expandTags` is the token-by-token
resolution of `resolveSelector`, concatenated and de-duplicated against the
running accumulator. -/
theorem expandTags_foldl_eq (latestClients : List AdGuardClientConfig)
    (clientList : List String) (acc : List String) :
    clientList.foldl
      (fun newClientList c =>
        if strStartsWith c "@" then
          (latestClients.filter fun cstat => cstat.tags.contains (strDrop c 1)).foldl
            (fun acc exp => dedupPush acc exp.name) newClientList
        else if strContainsChar c '*' then
          (latestClients.filter fun cstat => wildcardMatch c cstat.name).foldl
            (fun acc exp => dedupPush acc exp.name) newClientList
        else
          dedupPush newClientList c)
      acc
    = ((clientList.map (resolveSelector latestClients)).flatten).foldl dedupPush acc := by
  induction clientList generalizing acc with
  | nil => rfl
  | cons t ts ih =>
    rw [List.foldl_cons, ih, List.map_cons, List.flatten_cons, List.foldl_append]
    congr 1
    unfold resolveSelector
    by_cases h1 : strStartsWith t "@"
    · simp only [h1, if_true, List.foldl_map]
    · by_cases h2 : strContainsChar t '*'
      · simp only [h1, h2, if_false, if_true, Bool.false_eq_true, List.foldl_map]
      · simp only [h1, h2, if_false, Bool.false_eq_true, List.foldl_cons, List.foldl_nil]

/-- With an empty client cache, tag and wildcard tokens resolve to nothing
and only literal tokens survive. -/
theorem join_map_resolveSelector_nil (clientList : List String) :
    ((clientList.map (resolveSelector [])).flatten)
      = clientList.filter (fun t => !(strStartsWith t "@") && !(strContainsChar t '*')) := by
  induction clientList with
  | nil => rfl
  | cons t ts ih =>
    rw [List.map_cons, List.flatten_cons, ih]
    unfold resolveSelector
    by_cases h1 : strStartsWith t "@"
    · simp [h1, List.filter_cons]
    · by_cases h2 : strContainsChar t '*'
      · simp [h1, h2, List.filter_cons]
      · simp [h1, h2, List.filter_cons]

/-- Every value of the embedded state enum passes `isValidState`. -/
theorem isValidState_eq_true (v : AdGuardHomeState) : isValidState v = true := by
  cases v <;> rfl

/-- The `currentState` setter always stores the given (valid) value. -/
theorem setCurrentState_eq (g : GroupState) (v : AdGuardHomeState) :
    setCurrentState g v = { setTargetState g v with currentState := v } := by
  simp [setCurrentState, isValidState_eq_true]

/-- The value stored by the `currentState` setter. -/
theorem setCurrentState_currentState (g : GroupState) (v : AdGuardHomeState) :
    (setCurrentState g v).currentState = v := by
  rw [setCurrentState_eq]

/-- Re-assigning the current target through the target setter is a no-op. -/
theorem setTargetState_self (g : GroupState) : setTargetState g g.targetState = g := by
  unfold setTargetState
  split <;> rfl

/-- The current state after a presentation update is the state argument. -/
theorem updateHomeKit_currentState (g : GroupState) (s t : AdGuardHomeState) :
    (updateHomeKit g s t).g.currentState = s := by
  simp [updateHomeKit, setCurrentState_currentState]

/-- Unfolding of the state part of `updateHomeKit`. -/
theorem updateHomeKit_g_eq (g : GroupState) (s t : AdGuardHomeState) :
    (updateHomeKit g s t).g = setCurrentState (setTargetState g t) s := rfl

/-- Dispatch-independent description of `setAdGuardState`: its success flag
is the conjunction of its requests' outcomes, its final current state is the
target on success and UNAVAILABLE on failure, and the requests it issues do
not depend on the outcome oracle. -/
theorem setAdGuardState_spec (cfg : GroupConfig) (net : Net) (latest : AdGuardStatus)
    (store : ClientStore) (agState : Bool) (g : GroupState) :
    (setAdGuardState cfg net latest store agState g).successful
        = (setAdGuardState cfg net latest store agState g).requests.all net
    ∧ (setAdGuardState cfg net latest store agState g).g.currentState
        = (if (setAdGuardState cfg net latest store agState g).successful
           then toAGHState agState else AdGuardHomeState.UNAVAILABLE)
    ∧ ∀ net' : Net, (setAdGuardState cfg net' latest store agState g).requests
        = (setAdGuardState cfg net latest store agState g).requests := by
  unfold setAdGuardState postGlobal postGlobalServices postClients postClientServices
  by_cases hg : isGlobal cfg <;> by_cases hs : isSelectServices cfg <;>
    simp [hg, hs, setCurrentState_eq]

/-! ## Claim theorems -/

/-- C7: `expandTags` resolves each token in order — `@tag` tokens to the
cached clients carrying the tag in cache order, tokens containing `*` by
anchored case-sensitive glob match against cached client names, all other
tokens literally — concatenated and de-duplicated keeping first occurrences;
the result has no duplicate names, and with an empty client cache every tag
and wildcard token resolves to nothing. -/
theorem claim_c7_expandTags (latestClients : List AdGuardClientConfig) (tokens : List String) :
    expandTags latestClients tokens
      = dedupKeepFirst ((tokens.map (resolveSelector latestClients)).flatten)
    ∧ (expandTags latestClients tokens).Nodup
    ∧ expandTags [] tokens
      = dedupKeepFirst (tokens.filter fun t => !(strStartsWith t "@") && !(strContainsChar t '*')) := by
  refine ⟨?_, ?_, ?_⟩
  · exact expandTags_foldl_eq latestClients tokens []
  · have h : expandTags latestClients tokens
        = ((tokens.map (resolveSelector latestClients)).flatten).foldl dedupPush [] :=
      expandTags_foldl_eq latestClients tokens []
    rw [h]
    exact foldl_dedupPush_nodup _ _ List.nodup_nil
  · rw [show expandTags [] tokens
        = ((tokens.map (resolveSelector [])).flatten).foldl dedupPush [] from
        expandTags_foldl_eq [] tokens [],
      join_map_resolveSelector_nil]
    rfl

/-- C5: for every pair of string lists, `containsAllOrNone superset subset`
returns 1 when every element of `subset` is present in `superset`, -1 when
no element of `subset` is present, and 0 otherwise (mixed); in particular it
returns 1 on an empty `subset`. -/
theorem claim_c5_containsAllOrNone (superset subset : List String) :
    (containsAllOrNone superset subset =
      if ∀ s ∈ subset, s ∈ superset then (1 : Int)
      else if ∀ s ∈ subset, s ∉ superset then -1
      else 0)
    ∧ containsAllOrNone superset [] = 1 := by
  refine ⟨containsAllOrNone_eq_if superset subset, ?_⟩
  rw [containsAllOrNone_eq_if]
  simp

/-- C1: `getStateFromAdGuardStatus` agrees, on every config, cached client
list and snapshot, with the spec's description of status derivation:
Unavailable on an unavailable snapshot; otherwise a containment score cmp —
globalEnabled as ±1 for a plain global switch, `containsAllOrNone` of the
global blocked services for a global switch with service selectors, and for
client-scoped switches the AND-accumulated per-client containment (or
blocking-enabled) checks over the expanded selectors, with a client missing
from the snapshot failing `all` but not `none` — mapped by sign to
Disabled / Blocking / Inconsistent. -/
theorem claim_c1_deriveState (cfg : GroupConfig) (latestClients : List AdGuardClientConfig)
    (status : AdGuardStatus) :
    getStateFromAdGuardStatus cfg latestClients status =
      deriveStateSpec cfg latestClients status := by
  unfold getStateFromAdGuardStatus deriveStateSpec
  by_cases hav : status.isAvailable ≠ some true
  · simp [hav]
  · by_cases hg : isGlobal cfg
    · simp [hav, hg]
    · by_cases hsel : isSelectServices cfg
      · simp only [hav, hg, hsel, if_true, if_false, ite_false, ite_true, Bool.false_eq_true,
          not_true, not_false_iff, foldl_allNone, all_eq_decide, Bool.true_and]
      · simp only [hav, hg, hsel, if_true, if_false, ite_false, ite_true, Bool.false_eq_true,
          not_true, not_false_iff, foldl_allNone, all_eq_decide, Bool.true_and]

/-- C2: a `setAdGuardState` dispatch reports success iff every request it
issued succeeds — for the multi-client dispatches this is the AND across the
per-client batch, for the global dispatches it is the single request's
success; on failure the group's current state is forced to Unavailable, on
success it is set to the requested target state, and the requests issued do
not depend on which sub-requests succeed (no rollback is attempted). -/
theorem claim_c2_setAdGuardState (cfg : GroupConfig) (net : Net) (latest : AdGuardStatus)
    (store : ClientStore) (agState : Bool) (g : GroupState) :
    ((setAdGuardState cfg net latest store agState g).successful = true
        ↔ ∀ r ∈ (setAdGuardState cfg net latest store agState g).requests, net r = true)
    ∧ ((setAdGuardState cfg net latest store agState g).successful = false →
        (setAdGuardState cfg net latest store agState g).g.currentState
          = AdGuardHomeState.UNAVAILABLE)
    ∧ ((setAdGuardState cfg net latest store agState g).successful = true →
        (setAdGuardState cfg net latest store agState g).g.currentState
          = toAGHState agState)
    ∧ (∀ net' : Net, (setAdGuardState cfg net' latest store agState g).requests
        = (setAdGuardState cfg net latest store agState g).requests) := by
  obtain ⟨h1, h2, h3⟩ := setAdGuardState_spec cfg net latest store agState g
  refine ⟨?_, ?_, ?_, h3⟩
  · rw [h1, List.all_eq_true]
  · intro hf
    rw [h2, hf]
    rfl
  · intro ht
    rw [h2, ht]
    rfl

/-- Witness for C2 at a global switch: a failing oracle forces the current
state to Unavailable, a succeeding one sets it to the requested target. -/
theorem claim_c2_setAdGuardState_witness :
    (setAdGuardState { name := "g" } (fun _ => false) {} (fun _ => none) true
        ⟨AdGuardHomeState.DISABLED, AdGuardHomeState.DISABLED⟩).g.currentState
      = AdGuardHomeState.UNAVAILABLE
    ∧ (setAdGuardState { name := "g" } (fun _ => true) {} (fun _ => none) true
        ⟨AdGuardHomeState.DISABLED, AdGuardHomeState.DISABLED⟩).g.currentState
      = toAGHState true := by
  constructor
  · exact (claim_c2_setAdGuardState { name := "g" } (fun _ => false) {} (fun _ => none) true
      ⟨AdGuardHomeState.DISABLED, AdGuardHomeState.DISABLED⟩).2.1 (by decide)
  · exact (claim_c2_setAdGuardState { name := "g" } (fun _ => true) {} (fun _ => none) true
      ⟨AdGuardHomeState.DISABLED, AdGuardHomeState.DISABLED⟩).2.2.1 (by decide)

/-- C10: a client-scoped dispatch whose expanded selectors match no client
in the cached client list issues no request, reports success, and leaves
the group's current state at the requested target. -/
theorem claim_c10_emptyClientBatch (cfg : GroupConfig) (net : Net) (latest : AdGuardStatus)
    (store : ClientStore) (agState : Bool) (g : GroupState)
    (hclient : isGlobal cfg = false)
    (hnone : ∀ cname ∈ expandTags latest.clients cfg.clients,
        latest.clients.find? (fun c => c.name == cname) = none) :
    (setAdGuardState cfg net latest store agState g).requests = []
    ∧ (setAdGuardState cfg net latest store agState g).successful = true
    ∧ (setAdGuardState cfg net latest store agState g).g.currentState = toAGHState agState := by
  have hfm : (expandTags latest.clients cfg.clients).filterMap
      (fun cname => latest.clients.find? fun c => c.name == cname) = [] :=
    List.filterMap_eq_nil_iff.mpr hnone
  unfold setAdGuardState postClients postClientServices
  by_cases hs : isSelectServices cfg <;>
    simp [hclient, hs, hfm, setCurrentState_eq]

/-- Witness for C10: a group scoped to a client name absent from the cache
succeeds vacuously. -/
theorem claim_c10_emptyClientBatch_witness :
    (setAdGuardState { name := "g", clients := ["ghost"] } (fun _ => false) {}
        (fun _ => none) true ⟨AdGuardHomeState.DISABLED, AdGuardHomeState.DISABLED⟩).requests = []
    ∧ (setAdGuardState { name := "g", clients := ["ghost"] } (fun _ => false) {}
        (fun _ => none) true ⟨AdGuardHomeState.DISABLED, AdGuardHomeState.DISABLED⟩).successful = true
    ∧ (setAdGuardState { name := "g", clients := ["ghost"] } (fun _ => false) {}
        (fun _ => none) true
        ⟨AdGuardHomeState.DISABLED, AdGuardHomeState.DISABLED⟩).g.currentState
      = toAGHState true :=
  claim_c10_emptyClientBatch { name := "g", clients := ["ghost"] } (fun _ => false) {}
    (fun _ => none) true ⟨AdGuardHomeState.DISABLED, AdGuardHomeState.DISABLED⟩
    (by decide) (by decide)

/-- C8: a HomeKit toggle on a group whose current state is not consistent
(Inconsistent or Unavailable) is rejected unless `forceState` is set — the
runtime state is unchanged, no timer call and no HTTP request is made, and
the unchanged current state is re-rendered; with `forceState` set the toggle
proceeds and, when every issued request succeeds, leaves the group in the
consistent state matching the requested boolean. -/
theorem claim_c8_handleHomeKitSetEvent (cfg : GroupConfig) (net : Net) (latest : AdGuardStatus)
    (store : ClientStore) (g : GroupState) (value : Bool) (timeout : Nat) :
    (isConsistentState g.currentState = false → cfg.forceState = false →
      (handleHomeKitSetEvent cfg net latest store g value timeout).g = g
      ∧ (handleHomeKitSetEvent cfg net latest store g value timeout).requests = []
      ∧ (handleHomeKitSetEvent cfg net latest store g value timeout).timerMinutes = none
      ∧ (handleHomeKitSetEvent cfg net latest store g value timeout).presented
          = (g.currentState, g.targetState)
      ∧ (handleHomeKitSetEvent cfg net latest store g value timeout).rejected = true)
    ∧ (cfg.forceState = true →
      ((handleHomeKitSetEvent cfg net latest store g value timeout).requests.all net = true →
        (handleHomeKitSetEvent cfg net latest store g value timeout).g.currentState
          = toAGHState value
        ∧ isConsistentState
            (handleHomeKitSetEvent cfg net latest store g value timeout).g.currentState
          = true)
      ∧ (handleHomeKitSetEvent cfg net latest store g value timeout).rejected = false) := by
  constructor
  · intro hcur hforce
    have hcond : (!isConsistentState g.currentState && !cfg.forceState) = true := by
      rw [hcur, hforce]
      rfl
    unfold handleHomeKitSetEvent
    rw [if_pos hcond]
    have hg : (updateHomeKit g g.currentState g.targetState).g = g := by
      rw [updateHomeKit_g_eq, setTargetState_self, setCurrentState_eq,
        show setTargetState g g.currentState = g from by
          unfold setTargetState
          rw [if_neg (by rw [hcur]; exact fun h => Bool.false_ne_true h)]]
    exact ⟨hg, rfl, rfl, rfl, rfl⟩
  · intro hforce
    have hcond : (!isConsistentState g.currentState && !cfg.forceState) = false := by
      rw [hforce]
      simp
    unfold handleHomeKitSetEvent
    rw [if_neg (by rw [hcond]; exact fun h => Bool.false_ne_true h)]
    constructor
    · intro hall
      obtain ⟨h1, h2, _⟩ := setAdGuardState_spec cfg net latest store value g
      have hsucc : (setAdGuardState cfg net latest store value g).successful = true := by
        rw [h1]
        exact hall
      have hcur2 : (setAdGuardState cfg net latest store value g).g.currentState
          = toAGHState value := by
        rw [h2, hsucc]
        rfl
      refine ⟨?_, ?_⟩
      · rw [updateHomeKit_currentState, hcur2]
      · rw [updateHomeKit_currentState, hcur2]
        cases value <;> rfl
    · rfl

/-- Witness for C8: an Inconsistent group without forceState rejects the
toggle; a forced group collapses to Blocking when the request succeeds. -/
theorem claim_c8_handleHomeKitSetEvent_witness :
    ((handleHomeKitSetEvent { name := "g" } (fun _ => true) {} (fun _ => none)
        ⟨AdGuardHomeState.INCONSISTENT, AdGuardHomeState.BLOCKING⟩ true 5).g
      = ⟨AdGuardHomeState.INCONSISTENT, AdGuardHomeState.BLOCKING⟩
      ∧ (handleHomeKitSetEvent { name := "g" } (fun _ => true) {} (fun _ => none)
          ⟨AdGuardHomeState.INCONSISTENT, AdGuardHomeState.BLOCKING⟩ true 5).requests = [])
    ∧ (handleHomeKitSetEvent { name := "g", forceState := true } (fun _ => true) {}
        (fun _ => none)
        ⟨AdGuardHomeState.INCONSISTENT, AdGuardHomeState.BLOCKING⟩ true 5).g.currentState
      = toAGHState true := by
  constructor
  · have h := (claim_c8_handleHomeKitSetEvent { name := "g" } (fun _ => true) {}
      (fun _ => none) ⟨AdGuardHomeState.INCONSISTENT, AdGuardHomeState.BLOCKING⟩ true 5).1
      (by decide) (by decide)
    exact ⟨h.1, h.2.1⟩
  · exact (((claim_c8_handleHomeKitSetEvent { name := "g", forceState := true }
      (fun _ => true) {} (fun _ => none)
      ⟨AdGuardHomeState.INCONSISTENT, AdGuardHomeState.BLOCKING⟩ true 5).2
      (by decide)).1 (by decide)).1

/-- One externally triggered operation on a switch group's runtime state. -/
inductive GroupOp
  | opUpdate (latestClients : List AdGuardClientConfig) (status : AdGuardStatus)
  | opSet (net : Net) (latest : AdGuardStatus) (store : ClientStore) (agState : Bool)
  | opHomeKit (net : Net) (latest : AdGuardStatus) (store : ClientStore)
      (value : Bool) (timeout : Nat)
  | opUpdateHK (state target : AdGuardHomeState)
  | opRestore (net : Net) (latest : AdGuardStatus) (store : ClientStore)
      (now : Nat) (stored : Option Nat)

/-- The runtime state reached by running one operation. -/
def applyOp (cfg : GroupConfig) (g : GroupState) : GroupOp → GroupState
  | GroupOp.opUpdate lc st => (update cfg lc g st).g
  | GroupOp.opSet net latest store b => (setAdGuardState cfg net latest store b g).g
  | GroupOp.opHomeKit net latest store v t =>
      (handleHomeKitSetEvent cfg net latest store g v t).g
  | GroupOp.opUpdateHK s t => (updateHomeKit g s t).g
  | GroupOp.opRestore net latest store now stored =>
      (restoreUnfinishedTimers cfg net latest store g now stored).g

/-- Runtime-state invariant of a switch group: the target state is always
consistent, and whenever the current state is consistent the target equals
it. -/
def StateInv (g : GroupState) : Prop :=
  isConsistentState g.targetState = true
    ∧ (isConsistentState g.currentState = true → g.targetState = g.currentState)

/-- Unfolding of the state part of `setAdGuardState`: a target-setter write
followed by a current-setter write. -/
theorem setAdGuardState_g_shape (cfg : GroupConfig) (net : Net) (latest : AdGuardStatus)
    (store : ClientStore) (agState : Bool) (g : GroupState) :
    (setAdGuardState cfg net latest store agState g).g
      = setCurrentState (setTargetState g (toAGHState agState))
          (if (setAdGuardState cfg net latest store agState g).successful
           then toAGHState agState else AdGuardHomeState.UNAVAILABLE) := rfl

/-- Any write that goes through the target setter followed by the current
setter re-establishes the runtime-state invariant, as long as the previous
target was consistent. -/
theorem stateInv_double_set (g : GroupState) (t v : AdGuardHomeState)
    (h : isConsistentState g.targetState = true) :
    StateInv (setCurrentState (setTargetState g t) v) := by
  rw [setCurrentState_eq]
  constructor
  · show isConsistentState (setTargetState (setTargetState g t) v).targetState = true
    by_cases hv : isConsistentState v
    · simp [setTargetState, hv]
    · by_cases ht : isConsistentState t
      · simp [setTargetState, hv, ht]
      · simp [setTargetState, hv, ht]
        exact h
  · intro hc
    have hcv : isConsistentState v = true := hc
    show (setTargetState (setTargetState g t) v).targetState = v
    simp [setTargetState, hcv]

/-- Every operation preserves the runtime-state invariant. -/
theorem applyOp_stateInv (cfg : GroupConfig) (g : GroupState) (op : GroupOp)
    (h : StateInv g) : StateInv (applyOp cfg g op) := by
  cases op with
  | opUpdate lc st =>
    by_cases hc : getStateFromAdGuardStatus cfg lc st ≠ g.currentState
    · have he : applyOp cfg g (GroupOp.opUpdate lc st)
          = (updateHomeKit g (getStateFromAdGuardStatus cfg lc st)
              (getStateFromAdGuardStatus cfg lc st)).g := by
        simp [applyOp, update, hc]
      rw [he, updateHomeKit_g_eq]
      exact stateInv_double_set _ _ _ h.1
    · have he : applyOp cfg g (GroupOp.opUpdate lc st) = g := by
        simp [applyOp, update, hc]
      rw [he]
      exact h
  | opSet net latest store b =>
    rw [show applyOp cfg g (GroupOp.opSet net latest store b)
        = (setAdGuardState cfg net latest store b g).g from rfl,
      setAdGuardState_g_shape]
    exact stateInv_double_set _ _ _ h.1
  | opHomeKit net latest store v t =>
    by_cases hc : (!isConsistentState g.currentState && !cfg.forceState) = true
    · have he : applyOp cfg g (GroupOp.opHomeKit net latest store v t)
          = (updateHomeKit g g.currentState g.targetState).g := by
        simp only [applyOp, handleHomeKitSetEvent, hc, if_true, if_pos]
      rw [he, updateHomeKit_g_eq]
      exact stateInv_double_set _ _ _ h.1
    · have hm : StateInv (setAdGuardState cfg net latest store v g).g := by
        rw [setAdGuardState_g_shape]
        exact stateInv_double_set _ _ _ h.1
      have he : applyOp cfg g (GroupOp.opHomeKit net latest store v t)
          = (updateHomeKit (setAdGuardState cfg net latest store v g).g
              (setAdGuardState cfg net latest store v g).g.currentState
              (setAdGuardState cfg net latest store v g).g.targetState).g := by
        simp [applyOp, handleHomeKitSetEvent, hc]
      rw [he, updateHomeKit_g_eq]
      exact stateInv_double_set _ _ _ hm.1
  | opUpdateHK s t =>
    rw [show applyOp cfg g (GroupOp.opUpdateHK s t) = (updateHomeKit g s t).g from rfl,
      updateHomeKit_g_eq]
    exact stateInv_double_set _ _ _ h.1
  | opRestore net latest store now stored =>
    cases stored with
    | none =>
      exact h
    | some tv =>
      by_cases ht0 : tv = 0
      · have he : applyOp cfg g (GroupOp.opRestore net latest store now (some tv)) = g := by
          simp [applyOp, restoreUnfinishedTimers, ht0]
        rw [he]
        exact h
      · by_cases hpast : tv ≤ now
        · have hm : StateInv (setAdGuardState cfg net latest store cfg.defaultState g).g := by
            rw [setAdGuardState_g_shape]
            exact stateInv_double_set _ _ _ h.1
          have he : applyOp cfg g (GroupOp.opRestore net latest store now (some tv))
              = (updateHomeKit (setAdGuardState cfg net latest store cfg.defaultState g).g
                  (setAdGuardState cfg net latest store cfg.defaultState g).returned
                  (toAGHState cfg.defaultState)).g := by
            simp [applyOp, restoreUnfinishedTimers, ht0, hpast]
          rw [he, updateHomeKit_g_eq]
          exact stateInv_double_set _ _ _ hm.1
        · have he : applyOp cfg g (GroupOp.opRestore net latest store now (some tv)) = g := by
            simp [applyOp, restoreUnfinishedTimers, ht0, hpast]
          rw [he]
          exact h

/-- C9: the target-state setter rejects non-consistent values and keeps the
last consistent one; every (valid) assignment through the current-state
setter of a consistent value also sets the target state to that value; and
across every operation of the group, the invariant holds that the target
state is consistent and equals the current state whenever the latter is
consistent, regardless of the target the caller supplied. -/
theorem claim_c9_targetStateInvariant :
    (∀ (g : GroupState) (v : AdGuardHomeState), isConsistentState v = false →
        setTargetState g v = g)
    ∧ (∀ (g : GroupState) (v : AdGuardHomeState), isConsistentState v = true →
        (setCurrentState g v).targetState = v ∧ (setCurrentState g v).currentState = v)
    ∧ (∀ (cfg : GroupConfig) (g : GroupState) (op : GroupOp), StateInv g →
        StateInv (applyOp cfg g op)) := by
  refine ⟨?_, ?_, fun cfg g op h => applyOp_stateInv cfg g op h⟩
  · intro g v hv
    simp [setTargetState, hv]
  · intro g v hv
    rw [setCurrentState_eq]
    exact ⟨by simp [setTargetState, hv], rfl⟩

/-- Witness for C9: rejected inconsistent target write, coupled
current/target write, and invariant preservation across a concrete
presentation update. -/
theorem claim_c9_targetStateInvariant_witness :
    setTargetState ⟨AdGuardHomeState.BLOCKING, AdGuardHomeState.BLOCKING⟩
        AdGuardHomeState.INCONSISTENT
      = ⟨AdGuardHomeState.BLOCKING, AdGuardHomeState.BLOCKING⟩
    ∧ (setCurrentState ⟨AdGuardHomeState.BLOCKING, AdGuardHomeState.BLOCKING⟩
        AdGuardHomeState.DISABLED).targetState = AdGuardHomeState.DISABLED
    ∧ StateInv (applyOp { name := "g" }
        ⟨AdGuardHomeState.BLOCKING, AdGuardHomeState.BLOCKING⟩
        (GroupOp.opUpdateHK AdGuardHomeState.UNAVAILABLE AdGuardHomeState.DISABLED)) := by
  refine ⟨?_, ?_, ?_⟩
  · exact claim_c9_targetStateInvariant.1 _ _ (by decide)
  · exact (claim_c9_targetStateInvariant.2.1 _ _ (by decide)).1
  · exact claim_c9_targetStateInvariant.2.2 _ _ _ ⟨rfl, fun _ => rfl⟩

/-- The state value returned by `setAdGuardState` is the current state it
leaves behind. -/
theorem setAdGuardState_returned (cfg : GroupConfig) (net : Net) (latest : AdGuardStatus)
    (store : ClientStore) (agState : Bool) (g : GroupState) :
    (setAdGuardState cfg net latest store agState g).returned
      = (setAdGuardState cfg net latest store agState g).g.currentState := rfl

/-- C6: restoring persisted timers at startup — an absent or unparseable
stored value resets the slot to 0 with no further action; a stored 0 leaves
the slot cleared with no action; a non-zero deadline at or before `now`
clears the slot and drives the group to its configured default state through
the one mutation dispatch (whose success sets the current state to the
default); a future deadline re-arms with the remaining delay in
ceiling-rounded minutes, which for a deadline armed for 5 minutes and
restored before expiry is between 1 and 5 minutes, and within 5 ± 1 minutes
when the restore happens no more than a minute after arming. -/
theorem claim_c6_restoreUnfinishedTimers (cfg : GroupConfig) (net : Net)
    (latest : AdGuardStatus) (store : ClientStore) (g : GroupState) (now : Nat) :
    ((restoreUnfinishedTimers cfg net latest store g now none).stored = 0
      ∧ (restoreUnfinishedTimers cfg net latest store g now none).effect
          = RestoreEffect.noEffect
      ∧ (restoreUnfinishedTimers cfg net latest store g now none).requests = [])
    ∧ ((restoreUnfinishedTimers cfg net latest store g now (some 0)).stored = 0
      ∧ (restoreUnfinishedTimers cfg net latest store g now (some 0)).effect
          = RestoreEffect.noEffect
      ∧ (restoreUnfinishedTimers cfg net latest store g now (some 0)).requests = [])
    ∧ (∀ t : Nat, 0 < t → t ≤ now →
      (restoreUnfinishedTimers cfg net latest store g now (some t)).stored = 0
      ∧ (restoreUnfinishedTimers cfg net latest store g now (some t)).effect
          = RestoreEffect.runDefault
      ∧ (restoreUnfinishedTimers cfg net latest store g now (some t)).requests
          = (setAdGuardState cfg net latest store cfg.defaultState g).requests
      ∧ ((restoreUnfinishedTimers cfg net latest store g now (some t)).requests.all net
            = true →
          (restoreUnfinishedTimers cfg net latest store g now (some t)).g.currentState
            = toAGHState cfg.defaultState))
    ∧ (∀ t : Nat, now < t →
      (restoreUnfinishedTimers cfg net latest store g now (some t)).effect
          = RestoreEffect.rearmed ((t - now + 59999) / 60000)
      ∧ 1 ≤ (t - now + 59999) / 60000)
    ∧ (∀ armTime : Nat, startNewTimer armTime 5 = armTime + 5 * 60000
      ∧ (armTime ≤ now → now < armTime + 5 * 60000 →
        (restoreUnfinishedTimers cfg net latest store g now
            (some (startNewTimer armTime 5))).effect
          = RestoreEffect.rearmed ((armTime + 5 * 60000 - now + 59999) / 60000)
        ∧ 1 ≤ (armTime + 5 * 60000 - now + 59999) / 60000
        ∧ (armTime + 5 * 60000 - now + 59999) / 60000 ≤ 5
        ∧ (now ≤ armTime + 60000 → 4 ≤ (armTime + 5 * 60000 - now + 59999) / 60000))) := by
  refine ⟨⟨rfl, rfl, rfl⟩, ⟨rfl, rfl, rfl⟩, ?_, ?_, ?_⟩
  · intro t ht0 htn
    have hne : ¬ t = 0 := Nat.pos_iff_ne_zero.mp ht0
    refine ⟨?_, ?_, ?_, ?_⟩
    · simp [restoreUnfinishedTimers, hne, htn]
    · simp [restoreUnfinishedTimers, hne, htn]
    · simp [restoreUnfinishedTimers, hne, htn]
    · intro hall
      simp only [restoreUnfinishedTimers, hne, if_false, htn, if_true, ite_true, ite_false,
        if_neg hne, if_pos htn] at hall ⊢
      rw [updateHomeKit_currentState, setAdGuardState_returned]
      obtain ⟨h1, h2, _⟩ := setAdGuardState_spec cfg net latest store cfg.defaultState g
      have hsucc : (setAdGuardState cfg net latest store cfg.defaultState g).successful
          = true := by
        rw [h1]
        exact hall
      rw [h2, hsucc]
      rfl
  · intro t hnt
    have hne : ¬ t = 0 := by omega
    have hnp : ¬ t ≤ now := by omega
    constructor
    · simp [restoreUnfinishedTimers, hne, hnp]
    · have h60 : (0 : Nat) < 60000 := by norm_num
      rw [Nat.le_div_iff_mul_le h60]
      omega
  · intro armTime
    have harm : startNewTimer armTime 5 = armTime + 5 * 60000 := by
      simp [startNewTimer, maxSafeInteger]
    refine ⟨harm, ?_⟩
    intro hle hlt
    have hne : ¬ armTime + 5 * 60000 = 0 := by omega
    have hnp : ¬ armTime + 5 * 60000 ≤ now := by omega
    have h60 : (0 : Nat) < 60000 := by norm_num
    refine ⟨?_, ?_, ?_, ?_⟩
    · rw [harm]
      simp [restoreUnfinishedTimers, hne, hnp]
    · rw [Nat.le_div_iff_mul_le h60]
      omega
    · have hlt6 : (armTime + 5 * 60000 - now + 59999) / 60000 < 6 :=
        (Nat.div_lt_iff_lt_mul h60).mpr (by omega)
      omega
    · intro hsoon
      rw [Nat.le_div_iff_mul_le h60]
      omega

/-- Witness for C6: a deadline of 120000 ms restored at time 200000 expires
immediately; an `arm(5)` deadline taken at 60000 and restored at 90000
re-arms for 5 minutes. -/
theorem claim_c6_restoreUnfinishedTimers_witness :
    (restoreUnfinishedTimers { name := "g" } (fun _ => true) {} (fun _ => none)
        ⟨AdGuardHomeState.BLOCKING, AdGuardHomeState.BLOCKING⟩ 200000 (some 120000)).effect
      = RestoreEffect.runDefault
    ∧ (restoreUnfinishedTimers { name := "g" } (fun _ => true) {} (fun _ => none)
        ⟨AdGuardHomeState.BLOCKING, AdGuardHomeState.BLOCKING⟩ 90000
        (some (startNewTimer 60000 5))).effect = RestoreEffect.rearmed 5 := by
  constructor
  · exact ((claim_c6_restoreUnfinishedTimers { name := "g" } (fun _ => true) {}
      (fun _ => none) ⟨AdGuardHomeState.BLOCKING, AdGuardHomeState.BLOCKING⟩ 200000).2.2.1
      120000 (by norm_num) (by norm_num)).2.1
  · have h := ((claim_c6_restoreUnfinishedTimers { name := "g" } (fun _ => true) {}
      (fun _ => none) ⟨AdGuardHomeState.BLOCKING, AdGuardHomeState.BLOCKING⟩ 90000).2.2.2.2
      60000).2 (by norm_num) (by norm_num)
    rw [h.1]

/-- A single literal selector expands to itself. -/
theorem expandTags_literal_singleton (lc : List AdGuardClientConfig) (nm : String)
    (h1 : strStartsWith nm "@" = false) (h2 : strContainsChar nm '*' = false) :
    expandTags lc [nm] = [nm] := by
  simp [expandTags, h1, h2, dedupPush]

/-- Turning blocking on without a saved record never turns a client that
already had blocking enabled into a non-blocking one. -/
theorem setBlockingConfig_true_blocking (c : AdGuardClientConfig)
    (hb : isBlockingEnabled c = true) :
    isBlockingEnabled (setBlockingConfig c true) = true := by
  have hite : setBlockingConfig c true
      = { c with
            use_global_settings := c.use_global_settings || !isBlockingEnabled c true,
            use_global_blocked_services := decide (0 < c.blocked_services.length) } := by
    unfold setBlockingConfig
    rw [hb]
    rfl
  rw [hite]
  by_cases hig : isBlockingEnabled c true = true
  · have h2 := hig
    unfold isBlockingEnabled at h2
    simp only [Bool.not_true, Bool.false_and, Bool.or_false, Bool.false_or] at h2
    unfold isBlockingEnabled
    dsimp only
    simp only [Bool.not_true, Bool.not_false, Bool.false_and, Bool.true_and,
      Bool.or_false, Bool.false_or]
    simp only [Bool.or_eq_true] at h2 ⊢
    tauto
  · have h2 : isBlockingEnabled c true = false := by
      cases hx : isBlockingEnabled c true
      · rfl
      · exact absurd hx hig
    unfold isBlockingEnabled at h2
    simp only [Bool.not_true, Bool.false_and, Bool.or_false, Bool.false_or] at h2
    unfold isBlockingEnabled
    dsimp only
    simp only [Bool.not_true, Bool.not_false, Bool.false_and, Bool.true_and,
      Bool.or_false, Bool.false_or, h2]
    simp

/-- C4: the disable/enable round trip of a client-scoped switch without
service selectors, for a client found in the cache under a literal selector:
disabling a client with blocking enabled saves its full record under its
name and posts the record with every blocking field zeroed (and saves
nothing when blocking was already off); re-enabling with a saved record
replays it verbatim and clears the slot; re-enabling with no saved record
and no current blocking synthesizes delegation to global settings and global
blocked services; re-enabling with no saved record but existing blocking
posts `setBlockingConfig _ true`, which leaves every blocking field other
than the two global-delegation flags untouched and keeps the client
blocking-enabled. -/
theorem claim_c4_clientRoundTrip (net : Net) (store : ClientStore)
    (c saved : AdGuardClientConfig)
    (h1 : strStartsWith c.name "@" = false) (h2 : strContainsChar c.name '*' = false) :
    (isBlockingEnabled c = true →
      (postClients net [c] store false [c.name]).2.1 c.name = some c
      ∧ (postClients net [c] store false [c.name]).2.2
          = [AghRequest.postClientUpdateReq c.name (setBlockingConfig c false)])
    ∧ (isBlockingEnabled c = false →
      (postClients net [c] store false [c.name]).2.1 c.name = store c.name)
    ∧ ((setBlockingConfig c false).use_global_settings = false
      ∧ (setBlockingConfig c false).filtering_enabled = false
      ∧ (setBlockingConfig c false).parental_enabled = false
      ∧ (setBlockingConfig c false).safebrowsing_enabled = false
      ∧ (setBlockingConfig c false).safesearch_enabled = false
      ∧ (setBlockingConfig c false).safe_search_enabled = false
      ∧ (setBlockingConfig c false).use_global_blocked_services = false
      ∧ (setBlockingConfig c false).blocked_services = [])
    ∧ (store c.name = some saved →
      (postClients net [c] store true [c.name]).2.2
          = [AghRequest.postClientUpdateReq c.name saved]
      ∧ (postClients net [c] store true [c.name]).2.1 c.name = none)
    ∧ (store c.name = none → isBlockingEnabled c = false →
      (postClients net [c] store true [c.name]).2.2
          = [AghRequest.postClientUpdateReq c.name
              { c with use_global_settings := true, use_global_blocked_services := true }])
    ∧ (store c.name = none → isBlockingEnabled c = true →
      (postClients net [c] store true [c.name]).2.2
          = [AghRequest.postClientUpdateReq c.name (setBlockingConfig c true)]
      ∧ isBlockingEnabled (setBlockingConfig c true) = true
      ∧ (setBlockingConfig c true).filtering_enabled = c.filtering_enabled
      ∧ (setBlockingConfig c true).parental_enabled = c.parental_enabled
      ∧ (setBlockingConfig c true).safebrowsing_enabled = c.safebrowsing_enabled
      ∧ (setBlockingConfig c true).safesearch_enabled = c.safesearch_enabled
      ∧ (setBlockingConfig c true).safe_search_enabled = c.safe_search_enabled
      ∧ (setBlockingConfig c true).blocked_services = c.blocked_services) := by
  have hexp : expandTags [c] [c.name] = [c.name] := expandTags_literal_singleton _ _ h1 h2
  refine ⟨?_, ?_, ?_, ?_, ?_, ?_⟩
  · intro hb
    constructor
    · simp [postClients, hexp, hb, storeWrite]
    · simp [postClients, hexp, hb]
  · intro hb
    simp [postClients, hexp, hb]
  · simp [setBlockingConfig]
  · intro hsaved
    constructor
    · simp [postClients, hexp, hsaved]
    · simp [postClients, hexp, hsaved, storeWrite]
  · intro hsaved hb
    simp [postClients, hexp, hsaved, setBlockingConfig, hb]
  · intro hsaved hb
    refine ⟨?_, setBlockingConfig_true_blocking c hb, ?_, ?_, ?_, ?_, ?_, ?_⟩
    · simp [postClients, hexp, hsaved]
    · simp [setBlockingConfig, hb]
    · simp [setBlockingConfig, hb]
    · simp [setBlockingConfig, hb]
    · simp [setBlockingConfig, hb]
    · simp [setBlockingConfig, hb]
    · simp [setBlockingConfig, hb]

/-- Witness for C4 at a concrete client with filtering enabled: disabling
saves the record and posts a zeroed one, re-enabling replays a saved
record. -/
theorem claim_c4_clientRoundTrip_witness :
    (postClients (fun _ => true)
        [{ name := "kid", filtering_enabled := true }] (fun _ => none) false
        ["kid"]).2.1 "kid"
      = some { name := "kid", filtering_enabled := true }
    ∧ (postClients (fun _ => true)
        [{ name := "kid", filtering_enabled := true }]
        (fun k => if k = "kid" then some { name := "kid", filtering_enabled := true }
                  else none) true ["kid"]).2.2
      = [AghRequest.postClientUpdateReq "kid" { name := "kid", filtering_enabled := true }] := by
  constructor
  · exact ((claim_c4_clientRoundTrip (fun _ => true) (fun _ => none)
      { name := "kid", filtering_enabled := true }
      { name := "kid", filtering_enabled := true } (by decide) (by decide)).1
      (by decide)).1
  · exact ((claim_c4_clientRoundTrip (fun _ => true)
      (fun k => if k = "kid" then some { name := "kid", filtering_enabled := true }
                else none)
      { name := "kid", filtering_enabled := true }
      { name := "kid", filtering_enabled := true } (by decide) (by decide)).2.2.2.1
      (by decide)).1

/-- Success test for a fetch outcome. -/
def exceptOk {ε α : Type} : Except ε α → Bool
  | Except.ok _ => true
  | Except.error _ => false

/-- Every requested call of a fetch succeeded. -/
def fetchOk (o : FetchOutcomes) (gs gd gc : Bool) : Prop :=
  (gs = true → exceptOk o.statusResp = true)
    ∧ (gd = true → exceptOk o.servicesResp = true)
    ∧ (gc = true → exceptOk o.clientsResp = true)

/-- C3 counterexample: with only the services and clients calls requested
and succeeding, the snapshot returned by `getCurrentStatus` does not keep
the cache's prior `enabled` value — the unrequested field of the returned
snapshot is reset to its default, not to the prior cached value. -/
theorem claim_c3_counterexample :
    (getCurrentStatus { enabled := some true }
        ⟨Except.ok true, Except.ok ["x"], Except.ok []⟩ false true true).1.enabled
      ≠ ({ enabled := some true } : AdGuardStatus).enabled := by
  decide

/-- C3 (amended): when every requested call succeeds, the returned snapshot
has `available = true` with each requested field populated from its
response, each unrequested field of the returned snapshot left at its
default (empty/unset) value, and the server object's cache keeping its prior
value for every unrequested field (the cache is not invalidated); when any
requested call fails, the returned snapshot has `available = false` and
carries the error of a failing requested call. -/
theorem claim_c3_getCurrentStatus (latest : AdGuardStatus) (o : FetchOutcomes)
    (gs gd gc : Bool) :
    (fetchOk o gs gd gc →
      (getCurrentStatus latest o gs gd gc).1.isAvailable = some true
      ∧ (∀ b, gs = true → o.statusResp = Except.ok b →
          (getCurrentStatus latest o gs gd gc).1.enabled = some b
          ∧ (getCurrentStatus latest o gs gd gc).2.enabled = some b)
      ∧ (∀ ids, gd = true → o.servicesResp = Except.ok ids →
          (getCurrentStatus latest o gs gd gc).1.blocked_services = ids
          ∧ (getCurrentStatus latest o gs gd gc).2.blocked_services = ids)
      ∧ (∀ cs, gc = true → o.clientsResp = Except.ok cs →
          (getCurrentStatus latest o gs gd gc).1.clients = cs
          ∧ (getCurrentStatus latest o gs gd gc).2.clients = cs)
      ∧ (gs = false →
          (getCurrentStatus latest o gs gd gc).1.enabled = none
          ∧ (getCurrentStatus latest o gs gd gc).2.enabled = latest.enabled)
      ∧ (gd = false →
          (getCurrentStatus latest o gs gd gc).1.blocked_services = []
          ∧ (getCurrentStatus latest o gs gd gc).2.blocked_services
              = latest.blocked_services)
      ∧ (gc = false →
          (getCurrentStatus latest o gs gd gc).1.clients = []
          ∧ (getCurrentStatus latest o gs gd gc).2.clients = latest.clients))
    ∧ (¬ fetchOk o gs gd gc →
      (getCurrentStatus latest o gs gd gc).1.isAvailable = some false
      ∧ ∃ e, (getCurrentStatus latest o gs gd gc).1.error = some e
        ∧ ((gs = true ∧ o.statusResp = Except.error e)
          ∨ (gd = true ∧ o.servicesResp = Except.error e)
          ∨ (gc = true ∧ o.clientsResp = Except.error e))) := by
  constructor
  · intro hok
    rcases o with ⟨os, od, oc⟩
    rcases hok with ⟨h1, h2, h3⟩
    cases gs <;> cases gd <;> cases gc <;> cases os <;> cases od <;> cases oc <;>
      simp_all [getCurrentStatus, exceptOk]
  · intro hbad
    rcases o with ⟨os, od, oc⟩
    cases gs <;> cases gd <;> cases gc <;> cases os <;> cases od <;> cases oc <;>
      simp_all [getCurrentStatus, fetchOk, exceptOk]

/-- Witness for C3 (amended): one all-success fetch of all three fields and
one fetch with a failing clients call. -/
theorem claim_c3_getCurrentStatus_witness :
    (getCurrentStatus {} ⟨Except.ok true, Except.ok ["ads"], Except.ok []⟩
        true true true).1.isAvailable = some true
    ∧ (getCurrentStatus {} ⟨Except.ok true, Except.ok ["ads"], Except.error "down"⟩
        true true true).1.isAvailable = some false := by
  constructor
  · exact ((claim_c3_getCurrentStatus {} ⟨Except.ok true, Except.ok ["ads"], Except.ok []⟩
      true true true).1 (by exact ⟨fun _ => rfl, fun _ => rfl, fun _ => rfl⟩)).1
  · exact ((claim_c3_getCurrentStatus {}
      ⟨Except.ok true, Except.ok ["ads"], Except.error "down"⟩ true true true).2
      (fun h => Bool.false_ne_true (h.2.2 rfl))).1

end AGHP
